import Mathlib

/-!
Verification of the tulva BitTorrent client core (torrent.go, peermanager.go,
diskio.go) against its natural-language specification.

Modelling conventions:
* Go byte slices and on-disk file contents are `List Nat` (one `Nat` per byte).
* Go `int` byte counts and lengths are `Nat` (all values in scope are
  non-negative sizes and indices).
* `crypto/sha1` is an external library, so the digest function is an explicit
  parameter `hash : List Nat → List Nat` of every definition that hashes.
* Go runtime panics (index / slice out of range) and `log.Fatal` (process
  exit) are made explicit in the result type `GoResult`.
* Loops whose Go form walks an index are written with an explicit fuel
  argument initialised to a value that provably dominates the iteration
  count, so that every definition reduces by `decide` / `rfl`.
* Channels, goroutines and `tomb.Tomb` shutdown plumbing are not modelled;
  only the pure state transformations the claims are about.
-/

/-- Outcome of running a piece of Go code that can panic (index or slice out
of range) or call `log.Fatal` (which exits the whole process). -/
inductive GoResult (α : Type) where
  | ok (a : α)
  | oob
  | fatal
deriving DecidableEq, Repr

/-- One entry of `MetaInfo.Info.Files` (multi-file mode), from torrent.go.
The unused `Md5sum` field is dropped. -/
structure FileInfo where
  Length : Nat
  Path : List String
deriving DecidableEq, Repr

/-- The `Info` dictionary of `MetaInfo`, from torrent.go.  `Pieces` is the
concatenation of the 20-byte SHA-1 digests, kept as a byte list.  The unused
`Private` and `Md5sum` fields are dropped. -/
structure InfoDict where
  PieceLength : Nat
  Pieces : List Nat
  Name : String
  Length : Nat
  Files : List FileInfo
deriving DecidableEq, Repr

/-- Torrent metadata, from torrent.go (announce fields are irrelevant to the
core and dropped). -/
structure MetaInfo where
  Info : InfoDict
deriving DecidableEq, Repr

/-- The Go string slice `Pieces[pieceIndex : pieceIndex+20]` used by
`checkHash` (diskio.go line 37).  Go panics when the range exceeds the
string; the model clamps, and theorems that rely on the slice carry an
explicit in-range hypothesis instead. -/
def piecesSlice (pieces : List Nat) (pieceIndex : Nat) : List Nat :=
  (pieces.drop pieceIndex).take 20

/-- `DiskIO.checkHash` (diskio.go lines 34-41): hash the buffer and compare
with `Pieces[pieceIndex : pieceIndex+20]`.  Note that the second argument is
used as a BYTE OFFSET into the `Pieces` string, not as a piece number:
`Verify` advances it by 20 per piece. -/
def checkHash (hash : List Nat → List Nat) (pieces : List Nat)
    (buf : List Nat) (pieceIndex : Nat) : Bool :=
  decide (hash buf = piecesSlice pieces pieceIndex)

/-- Inner read loop of `DiskIO.Verify` (diskio.go lines 59-79) over one file.
`buf` holds the carried partial buffer contents (`m` bytes in the Go code),
`idx` the current byte offset into `Pieces`, `rest` the unread bytes of the
file.  A `ReadAt` that fills `buf[m:]` completely yields a full piece, which
is hashed; a short read is an `io.EOF`, the loop breaks and carries
`buf ++ rest` into the next file.  `fuel` dominates the iteration count
(each full read consumes at least one byte of `rest`); callers pass
`rest.length + 1`.  With `PieceLength = 0` the Go loop would not terminate;
the model is only used for positive piece lengths. -/
def verifyChunksLoop (hash : List Nat → List Nat) (pl : Nat) (pieces : List Nat) :
    Nat → List Nat → Nat → List Nat → List Bool × List Nat × Nat
  | 0, buf, idx, rest => ([], buf ++ rest, idx)
  | fuel + 1, buf, idx, rest =>
    if pl - buf.length ≤ rest.length ∧ 0 < pl - buf.length then
      (checkHash hash pieces (buf ++ rest.take (pl - buf.length)) idx ::
          (verifyChunksLoop hash pl pieces fuel [] (idx + 20)
            (rest.drop (pl - buf.length))).1,
        (verifyChunksLoop hash pl pieces fuel [] (idx + 20)
          (rest.drop (pl - buf.length))).2)
    else ([], buf ++ rest, idx)

/-- The outer per-file loop of `DiskIO.Verify` in multiple-file mode
(diskio.go lines 58-80): each metadata file contributes its on-disk bytes,
with the partial buffer and pieces offset carried across file boundaries. -/
def verifyFiles (hash : List Nat → List Nat) (pl : Nat) (pieces : List Nat) :
    List (List Nat) → List Nat → Nat → List Bool × List Nat × Nat
  | [], buf, idx => ([], buf, idx)
  | f :: fs, buf, idx =>
    ((verifyChunksLoop hash pl pieces (f.length + 1) buf idx f).1 ++
        (verifyFiles hash pl pieces fs
          (verifyChunksLoop hash pl pieces (f.length + 1) buf idx f).2.1
          (verifyChunksLoop hash pl pieces (f.length + 1) buf idx f).2.2).1,
      (verifyFiles hash pl pieces fs
        (verifyChunksLoop hash pl pieces (f.length + 1) buf idx f).2.1
        (verifyChunksLoop hash pl pieces (f.length + 1) buf idx f).2.2).2)

/-- Trailing partial-read check of `DiskIO.Verify` (diskio.go lines 83-85 and
107-109): when the last read left `m > 0` carried bytes, hash them as the
final (short) piece. -/
def verifyPartial (hash : List Nat → List Nat) (pieces : List Nat)
    (r : List Bool × List Nat × Nat) : List Bool :=
  if 0 < r.2.1.length then r.1 ++ [checkHash hash pieces r.2.1 r.2.2] else r.1

/-- `DiskIO.Verify` (diskio.go lines 45-114).  `files` is the list of on-disk
contents of the opened handles, one per metadata file entry in multiple-file
mode (as `DiskIO.Init` creates them) and a single entry in single-file mode.
In single-file mode Go reads a fresh full buffer each iteration and hashes
`buf[:n]` on a trailing short read, which is the carry loop started from an
empty buffer. -/
def Verify (hash : List Nat → List Nat) (mi : MetaInfo)
    (files : List (List Nat)) : List Bool :=
  if 0 < mi.Info.Files.length then
    verifyPartial hash mi.Info.Pieces
      (verifyFiles hash mi.Info.PieceLength mi.Info.Pieces files [] 0)
  else
    verifyPartial hash mi.Info.Pieces
      (verifyChunksLoop hash mi.Info.PieceLength mi.Info.Pieces
        ((files.getD 0 []).length + 1) [] 0 (files.getD 0 []))

/-- Piece count of a torrent, as torrent.go line 152 computes it:
`len(Pieces) / 20`. -/
def numPieces (mi : MetaInfo) : Nat :=
  mi.Info.Pieces.length / 20

/-- Total number of bytes actually present on disk for the layout: the sum
of the file sizes in multiple-file mode, the single file's size otherwise. -/
def onDiskLength (mi : MetaInfo) (files : List (List Nat)) : Nat :=
  if 0 < mi.Info.Files.length then (files.map List.length).sum
  else (files.getD 0 []).length

/-- A completed piece handed to `DiskIO.writePiece`; the `Piece` struct is
declared in the controller source (not part of this corpus), its fields are
the ones diskio.go uses: `index`, `data`, `peerName`. -/
structure Piece where
  index : Nat
  data : List Nat
  peerName : String
deriving DecidableEq, Repr

/-- `os.File.WriteAt` on contents `f`: positional write of `d` at `off`,
zero-filling any gap beyond the current end of file. -/
def writeAtBytes (f : List Nat) (off : Nat) (d : List Nat) : List Nat :=
  f.take off ++ List.replicate (off - f.length) 0 ++ d ++ f.drop (off + d.length)

/-- The file walk of `DiskIO.writePiece` (diskio.go lines 150-166).  The Go
loop runs `i := 0; i <= len(Files); i++`: the iteration at `i = len(Files)`
indexes `Files[i]` out of range (`.oob`).  Within a file, `piece.data[:max]`
panics when `max` exceeds the remaining data (capacity = length for a
received piece buffer), and a `WriteAt` error is `log.Fatal` (`.fatal`);
`errAt i offset` injects such an I/O error.  `files` is assumed aligned with
the metadata file list (as `DiskIO.Init` builds it).  `fuel` dominates the
remaining iterations; `writePiece` passes `len(Files) + 1`. -/
def writePieceLoop (errAt : Nat → Nat → Bool) (lens : List Nat) :
    Nat → Nat → Nat → List Nat → List (List Nat) → GoResult (List (List Nat))
  | 0, _, _, _, files => .ok files
  | fuel + 1, i, offset, data, files =>
    if i < lens.length then
      if offset > lens.getD i 0 then
        writePieceLoop errAt lens fuel (i + 1) (offset - lens.getD i 0) data files
      else if lens.getD i 0 - offset ≤ data.length then
        if errAt i offset then .fatal
        else if data.length = lens.getD i 0 - offset then
          .ok (files.set i
            (writeAtBytes (files.getD i []) offset (data.take (lens.getD i 0 - offset))))
        else
          writePieceLoop errAt lens fuel (i + 1) 0 (data.drop (lens.getD i 0 - offset))
            (files.set i
              (writeAtBytes (files.getD i []) offset (data.take (lens.getD i 0 - offset))))
      else .oob
    else if i ≤ lens.length then .oob
    else .ok files

/-- `DiskIO.writePiece` (diskio.go lines 147-167): start at byte offset
`index * PieceLength` and walk the metadata file list. -/
def writePiece (errAt : Nat → Nat → Bool) (mi : MetaInfo)
    (files : List (List Nat)) (piece : Piece) : GoResult (List (List Nat)) :=
  writePieceLoop errAt (mi.Info.Files.map FileInfo.Length)
    (mi.Info.Files.length + 1) 0 (piece.index * mi.Info.PieceLength)
    piece.data files

/-- A block request, the `BlockInfo` struct declared in the controller source
(not part of this corpus); fields follow the spec's BlockSpan
(piece index, intra-piece offset, length).  diskio.go uses only `pieceIndex`
and `length` — the offset is never consulted. -/
structure BlockInfo where
  pieceIndex : Nat
  offset : Nat
  length : Nat
deriving DecidableEq, Repr

/-- `DiskIO.readBlock` (diskio.go lines 202-208): `io.ReadFull` of
`block.length` bytes from the handle's CURRENT position — which is 0, since
all other I/O is positional (`ReadAt`/`WriteAt`).  A short file makes
`ReadFull` fail and the code calls `log.Fatal`. -/
def readBlock (file : List Nat) (block : BlockInfo) : GoResult (List Nat) :=
  if block.length ≤ file.length then .ok (file.take block.length) else .fatal

/-- The multiple-file walk of `DiskIO.requestBlock` (diskio.go lines
221-227).  The loop runs `i := 0; i <= len(Files); i++` with NO break after a
successful read, so it always proceeds to `i = len(Files)` and indexes
`Files[i]` out of range.  `resp` is `response.data`. -/
def requestBlockLoop (lens : List Nat) (files : List (List Nat))
    (block : BlockInfo) : Nat → Nat → Nat → Option (List Nat) → GoResult (List Nat)
  | 0, _, _, resp => .ok (resp.getD [])
  | fuel + 1, i, offset, resp =>
    if i < lens.length then
      if offset > lens.getD i 0 then
        requestBlockLoop lens files block fuel (i + 1) (offset - lens.getD i 0) resp
      else
        match readBlock (files.getD i []) block with
        | .ok d => requestBlockLoop lens files block fuel (i + 1) offset (some d)
        | .oob => .oob
        | .fatal => .fatal
    else if i ≤ lens.length then .oob
    else .ok (resp.getD [])

/-- `DiskIO.requestBlock` (diskio.go lines 210-230). -/
def requestBlock (mi : MetaInfo) (files : List (List Nat))
    (block : BlockInfo) : GoResult (List Nat) :=
  if mi.Info.Files.length = 0 then
    if 0 < files.length then readBlock (files.getD 0 []) block else .oob
  else
    requestBlockLoop (mi.Info.Files.map FileInfo.Length) files block
      (mi.Info.Files.length + 1) 0 (block.pieceIndex * mi.Info.PieceLength)
      none

/-- Per-peer state, from peermanager.go lines 35-44.  The channel fields are
connection plumbing and are not modelled.  The Go struct comment documents
that `isChoked` "Defaults to TRUE (choked)". -/
structure PeerInfo where
  peerId : String
  isChoked : Bool
  availablePieces : List Bool
  activeRequests : List Nat
  qtyPiecesNeeded : Nat
deriving DecidableEq, Repr

/-- The Go zero value of `PeerInfo`, as produced by `new(PeerInfo)`. -/
instance : Inhabited PeerInfo :=
  ⟨{ peerId := "", isChoked := false, availablePieces := [],
     activeRequests := [], qtyPiecesNeeded := 0 }⟩

/-- `SortedPeers`, peermanager.go line 46. -/
abbrev SortedPeers := List PeerInfo

/-- `SortedPeers.Less` (peermanager.go lines 48-50): the comparator handed to
`sort.Sort`, comparing `qtyPiecesNeeded` with `<=` (not `<`).  `sort.Sort`
only calls it with in-range indices, so out-of-range access is modelled with
the zero value rather than a panic. -/
def SortedPeers.Less (sp : SortedPeers) (i j : Nat) : Bool :=
  decide ((sp.getD i default).qtyPiecesNeeded ≤ (sp.getD j default).qtyPiecesNeeded)

/-- The element-level ordering induced by `SortedPeers.Less`. -/
def peerLE (a b : PeerInfo) : Prop :=
  a.qtyPiecesNeeded ≤ b.qtyPiecesNeeded

instance : DecidableRel peerLE :=
  fun a b => Nat.decLe a.qtyPiecesNeeded b.qtyPiecesNeeded

instance : IsTotal PeerInfo peerLE :=
  ⟨fun a b => Nat.le_total a.qtyPiecesNeeded b.qtyPiecesNeeded⟩

instance : IsTrans PeerInfo peerLE :=
  ⟨fun _ _ _ => Nat.le_trans⟩

/-- `sortedPeersByQtyPiecesNeeded` (peermanager.go lines 62-71): collect the
map's values into a slice and `sort.Sort` it with `SortedPeers.Less`.  Go's
map iteration order is unspecified, so the input is the value list in
whatever order iteration produced; `sort.Sort` (an unstable comparison sort)
is modelled by a comparison sort over the same `<=` comparator. -/
def sortedPeersByQtyPiecesNeeded (peers : List PeerInfo) : SortedPeers :=
  List.insertionSort peerLE peers

/-- `NewPeerInfo` (peermanager.go lines 82-91): `new(PeerInfo)` zero value,
then `availablePieces` and `activeRequests` are allocated.  `isChoked` is
never assigned, so it stays at Go's zero value `false`. -/
def NewPeerInfo (quantityOfPieces : Nat) : PeerInfo :=
  { peerId := "", isChoked := false,
    availablePieces := List.replicate quantityOfPieces false,
    activeRequests := [], qtyPiecesNeeded := 0 }

/-- `PeerTuple` (peermanager.go lines 17-20); the `net.IP` is modelled by its
`String()` rendering, which is all `PeerManager.Run` uses of it. -/
structure PeerTuple where
  ip : String
  port : Nat
deriving DecidableEq, Repr

/-- `Peer` (peermanager.go lines 22-25); the `net.Conn` is connection
plumbing and is not modelled. -/
structure Peer where
  peer : PeerTuple
deriving DecidableEq, Repr

/-- `NewPeer` (peermanager.go lines 93-114): allocates a zero `Peer` and
returns it — the tuple argument is only printed, never stored. -/
def NewPeer (_peerTuple : PeerTuple) : Peer :=
  { peer := { ip := "", port := 0 } }

/-- The registry key `fmt.Sprintf("%s:%d", peer.IP.String(), peer.Port)`
(peermanager.go line 138). -/
def peerKey (peer : PeerTuple) : String :=
  peer.ip ++ ":" ++ toString peer.port

/-- The `peersCh` case of `PeerManager.Run` (peermanager.go lines 137-145):
if the key is already in `pm.peers` the message is a logged no-op, otherwise
`NewPeer` is inserted.  The Go map is modelled as an association list. -/
def handlePeerTuple (peers : List (String × Peer)) (peer : PeerTuple) :
    List (String × Peer) :=
  match peers.lookup (peerKey peer) with
  | some _ => peers
  | none => (peerKey peer, NewPeer peer) :: peers

/-- `Stats` (torrent.go). -/
structure Stats where
  Left : Nat
  Uploaded : Nat
  Downloaded : Nat
deriving DecidableEq, Repr

/-- The `Torrent` session state; of the Go struct only the fields `Init`
touches are modelled. -/
structure Torrent where
  metaInfo : MetaInfo
  Stats : Stats
deriving DecidableEq, Repr

/-- `Torrent.Init` (torrent.go lines 101-111): seed `Stats.Left` with the sum
of the per-file lengths in multiple-file mode (`Left += file.Length` in a
loop), the declared single-file length otherwise. -/
def Torrent.Init (t : Torrent) : Torrent :=
  if 0 < t.metaInfo.Info.Files.length then
    { t with Stats := { t.Stats with
        Left := t.metaInfo.Info.Files.foldl (fun acc f => acc + f.Length) t.Stats.Left } }
  else
    { t with Stats := { t.Stats with Left := t.metaInfo.Info.Length } }

/-- Total content length in the words of the spec (§3 Stats, §6): "the sum of
per-file lengths in multi-file mode, and the declared single-file length
otherwise".  Spec-side definition, to be compared with `Torrent.Init`. -/
def specTotalLength (mi : MetaInfo) : Nat :=
  if 0 < mi.Info.Files.length then (mi.Info.Files.map FileInfo.Length).sum
  else mi.Info.Length

/-- The spec's notion of "the p-th 20-byte entry of the piece-hash list"
(spec-side definition, to be compared with the offset `checkHash` actually
uses). -/
def pieceDigest (pieces : List Nat) (p : Nat) : List Nat :=
  (pieces.drop (20 * p)).take 20

/-! ### Concrete instances used by counterexamples and witnesses -/

/-- The spec §8 straddle layout: piece length 16, file A length 10, file B
length 22 (two pieces). -/
def exMeta2f : MetaInfo :=
  { Info := { PieceLength := 16, Pieces := List.replicate 40 0, Name := "d",
              Length := 0,
              Files := [{ Length := 10, Path := ["a"] },
                        { Length := 22, Path := ["b"] }] } }

/-- A multiple-file layout with a single file of length 10 equal to the
piece length, so that piece 0 ends exactly at a file boundary. -/
def exMeta1f : MetaInfo :=
  { Info := { PieceLength := 10, Pieces := List.replicate 20 0, Name := "d",
              Length := 0, Files := [{ Length := 10, Path := ["a"] }] } }

/-- A single-file torrent of one 4-byte piece. -/
def exMetaSingle : MetaInfo :=
  { Info := { PieceLength := 4, Pieces := List.replicate 20 0, Name := "f",
              Length := 4, Files := [] } }

/-- A multiple-file torrent with piece length 4 and declared file lengths 3
and 2. -/
def exMetaSmall : MetaInfo :=
  { Info := { PieceLength := 4, Pieces := List.replicate 40 0, Name := "d",
              Length := 0,
              Files := [{ Length := 3, Path := ["a"] },
                        { Length := 2, Path := ["b"] }] } }

/-- A trivial stand-in digest function (the digest is a definition parameter;
any concrete function exercises the comparison logic). -/
def exHash : List Nat → List Nat := fun _ => []

/-- A pieces string whose entry 1 is twenty `1` bytes, while bytes
`[1, 21)` are nineteen `0`s and one `1`. -/
def exPieces2 : List Nat := List.replicate 20 0 ++ List.replicate 20 1

/-- A digest function that yields exactly entry 1 of `exPieces2`. -/
def exHash2 : List Nat → List Nat := fun _ => List.replicate 20 1

/-- A fresh session over `exMetaSmall` (all `Stats` counters zero). -/
def exTorrent : Torrent :=
  { metaInfo := exMetaSmall,
    Stats := { Left := 0, Uploaded := 0, Downloaded := 0 } }

/-! ### Theorems -/

/-- C2, counterexample: a buffer whose digest equals the 1st 20-byte entry of
the piece-hash list is rejected by `checkHash(buf, 1)`, because `checkHash`
slices `Pieces[1 : 21]` — it treats its second argument as a byte offset,
not a piece number. -/
theorem checkHash_pth_entry_cx :
    exHash2 [] = pieceDigest exPieces2 1 ∧
    checkHash exHash2 exPieces2 [] 1 = false := by
  constructor
  · decide
  · decide

/-- C2 (amended): `checkHash(buf, off)` compares the digest of `buf` with
bytes `[off, off + 20)` of the concatenated piece-hash string; for piece `p`
the recorded digest is matched exactly when the caller passes the byte
offset `20 * p`, as `Verify` does. -/
theorem checkHash_at_offset (hash : List Nat → List Nat) (pieces : List Nat)
    (p : Nat) (buf : List Nat) (h : 20 * p + 20 ≤ pieces.length) :
    checkHash hash pieces buf (20 * p) = true ↔ hash buf = pieceDigest pieces p := by
  unfold checkHash piecesSlice pieceDigest
  exact decide_eq_true_iff

/-- C2, witness for `checkHash_at_offset` at piece 1 of `exPieces2` with a
digest equal to the recorded entry. -/
theorem checkHash_at_offset_witness :
    20 * 1 + 20 ≤ exPieces2.length ∧
    (checkHash exHash2 exPieces2 [] (20 * 1) = true ↔
      exHash2 [] = pieceDigest exPieces2 1) :=
  ⟨by decide, checkHash_at_offset exHash2 exPieces2 1 [] (by decide)⟩

/-- C3: on the spec's own example (piece length 16, files of lengths 10 and
22), writing piece 0 crashes: after placing bytes `[0, 10)` in file A the
code slices `piece.data[:22]` although only 6 bytes remain, a slice-bounds
panic — so the write/read round trip claimed by the spec cannot happen. -/
theorem writePiece_straddle_crashes :
    writePiece (fun _ _ => false) exMeta2f
      [List.replicate 10 0, List.replicate 22 0]
      { index := 0, data := List.replicate 16 1, peerName := "p" } = .oob := by
  decide

/-- C4: the offset walk of `requestBlock` in multiple-file mode accesses the
file index `len(Files)` itself — out of range — on every in-range request
(its loop runs `i <= len(Files)` and never breaks after reading), here shown
for a 4-byte block of piece 0 on the two-file layout. -/
theorem requestBlock_walk_out_of_range :
    requestBlock exMeta2f [List.replicate 10 0, List.replicate 22 0]
      { pieceIndex := 0, offset := 0, length := 4 } = .oob := by
  decide

/-- C5, counterexample: the comparator `SortedPeers.Less` is `<=` on
need-counts, hence reflexive — `Less(0, 0)` on a one-peer slice is `true` —
so it is not the strict comparator the claim states (a strict order is
irreflexive). -/
theorem sortedPeers_less_not_strict_cx :
    SortedPeers.Less
      [{ peerId := "a", isChoked := false, availablePieces := [],
         activeRequests := [], qtyPiecesNeeded := 3 }] 0 0 = true := by
  decide

/-- C5 (amended): `sortedPeersByQtyPiecesNeeded` orders peers into
NON-DECREASING need-count order; its comparator is the non-strict `<=` on
`qtyPiecesNeeded` (total and transitive but not irreflexive), and relative
order among equal need-counts is not guaranteed (the input comes from an
unordered Go map and `sort.Sort` is unstable). -/
theorem sortedPeers_sorted (peers : List PeerInfo) :
    List.Sorted peerLE (sortedPeersByQtyPiecesNeeded peers) :=
  List.sorted_insertionSort peerLE peers

/-- C7: `NewPeerInfo` allocates the bitfield correctly (length = piece
count, all false) but leaves `isChoked` at Go's zero value `false` —
contradicting the struct's own comment "Defaults to TRUE (choked)" and the
claim; here evaluated at piece count 3. -/
theorem newPeerInfo_initial_state :
    (NewPeerInfo 3).isChoked = false ∧
    (NewPeerInfo 3).availablePieces = List.replicate 3 false :=
  ⟨rfl, rfl⟩

/-- C8: delivering the same peer tuple twice leaves the registry map exactly
as after the first delivery — the second `peersCh` message finds the key
present and is a no-op. -/
theorem handlePeerTuple_idempotent (peers : List (String × Peer)) (peer : PeerTuple) :
    handlePeerTuple (handlePeerTuple peers peer) peer = handlePeerTuple peers peer := by
  unfold handlePeerTuple
  cases h : peers.lookup (peerKey peer) with
  | some p => simp [h]
  | none => simp [h, List.lookup]

/-- C10: the ranking returns a permutation of the peer states it was given —
one output element per peer in the map, none dropped, none duplicated. -/
theorem sortedPeers_perm (peers : List PeerInfo) :
    (sortedPeersByQtyPiecesNeeded peers).Perm peers :=
  List.perm_insertionSort peerLE peers

/-- Helper for C9: the `Left +=` loop of `Torrent.Init` accumulates the sum
of the per-file lengths on top of the starting value. -/
theorem foldl_add_length (fls : List FileInfo) (a : Nat) :
    fls.foldl (fun acc f => acc + f.Length) a = a + (fls.map FileInfo.Length).sum := by
  induction fls generalizing a with
  | nil => simp
  | cons f fs ih => simp [ih, Nat.add_assoc]

/-- C9: after `Torrent.Init` on a fresh session (`Stats.Left = 0`),
`Stats.Left` equals the total content length — the sum of the per-file
lengths in multiple-file mode, the declared single-file length otherwise. -/
theorem torrent_init_left (t : Torrent) (h : t.Stats.Left = 0) :
    (Torrent.Init t).Stats.Left = specTotalLength t.metaInfo := by
  unfold Torrent.Init specTotalLength
  by_cases hf : 0 < t.metaInfo.Info.Files.length
  · rw [if_pos hf, if_pos hf]
    simp [foldl_add_length, h]
  · rw [if_neg hf, if_neg hf]

/-- C9, witness for `torrent_init_left` on the fresh two-file session
`exTorrent` (file lengths 3 and 2). -/
theorem torrent_init_left_witness :
    exTorrent.Stats.Left = 0 ∧
    (Torrent.Init exTorrent).Stats.Left = specTotalLength exTorrent.metaInfo :=
  ⟨rfl, torrent_init_left exTorrent rfl⟩

/-- Helper for C6: the walk of `writePiece` takes branches independent of
the error oracle until the first `WriteAt` is attempted; a normal return
always passes through a write, so under an always-failing oracle the first
write hits `log.Fatal`. -/
theorem writePieceLoop_error_fatal (lens : List Nat) :
    ∀ (fuel i offset : Nat) (data : List Nat) (files fs' : List (List Nat)),
      lens.length < fuel + i → i ≤ lens.length →
      writePieceLoop (fun _ _ => false) lens fuel i offset data files = .ok fs' →
      writePieceLoop (fun _ _ => true) lens fuel i offset data files = .fatal := by
  intro fuel
  induction fuel with
  | zero => intro i offset data files fs' hfi hi _; omega
  | succ fuel ih =>
    intro i offset data files fs' hfi hi h
    simp only [writePieceLoop] at h ⊢
    by_cases h1 : i < lens.length
    · rw [if_pos h1] at h ⊢
      by_cases h2 : offset > lens.getD i 0
      · rw [if_pos h2] at h ⊢
        exact ih (i + 1) (offset - lens.getD i 0) data files fs' (by omega) (by omega) h
      · rw [if_neg h2] at h ⊢
        by_cases h3 : lens.getD i 0 - offset ≤ data.length
        · rw [if_pos h3]
          simp
        · rw [if_neg h3] at h
          simp at h
    · rw [if_neg h1, if_pos hi] at h
      simp at h

/-- C6 (amended): a `WriteAt` I/O failure inside `writePiece` is handled by
`log.Fatal`, which terminates the whole process — no failed-operation result
for that request is reported to the Scheduler.  Stated for every layout,
piece and disk state on which the error-free write would return normally
(`readBlock` behaves the same way: a failed `io.ReadFull` is `log.Fatal`). -/
theorem writePiece_error_fatal (mi : MetaInfo) (files fs' : List (List Nat))
    (piece : Piece)
    (h : writePiece (fun _ _ => false) mi files piece = .ok fs') :
    writePiece (fun _ _ => true) mi files piece = .fatal := by
  unfold writePiece at h ⊢
  exact writePieceLoop_error_fatal (mi.Info.Files.map FileInfo.Length)
    (mi.Info.Files.length + 1) 0 (piece.index * mi.Info.PieceLength)
    piece.data files fs' (by rw [List.length_map]; omega) (by omega) h

/-- C6, counterexample: injecting a `WriteAt` error on an otherwise valid
piece write makes the whole process exit (`log.Fatal` in `writePiece`)
instead of reporting a failed operation for that request. -/
theorem writePiece_io_error_exits_cx :
    writePiece (fun _ _ => true) exMeta1f [List.replicate 10 0]
      { index := 0, data := List.replicate 10 1, peerName := "p" } = .fatal := by
  decide

/-- C6, witness for `writePiece_error_fatal`: the error-free write of piece 0
on the one-file layout returns normally, so the same write under an I/O
error exits the process. -/
theorem writePiece_error_fatal_witness :
    writePiece (fun _ _ => false) exMeta1f [List.replicate 10 0]
      { index := 0, data := List.replicate 10 2, peerName := "w" } =
        .ok [List.replicate 10 2] ∧
    writePiece (fun _ _ => true) exMeta1f [List.replicate 10 0]
      { index := 0, data := List.replicate 10 2, peerName := "w" } = .fatal :=
  ⟨by decide,
   writePiece_error_fatal exMeta1f [List.replicate 10 0] [List.replicate 10 2]
     { index := 0, data := List.replicate 10 2, peerName := "w" } (by decide)⟩

/-- C1, counterexample: on a single-file torrent of one 4-byte piece whose
backing file exists but is still empty (as `openOrCreateFile` leaves it),
`Verify` returns NO entries at all — a piece whose byte range could not be
read is omitted from the result, not reported as `false`. -/
theorem verify_entry_per_piece_cx :
    ¬ (Verify exHash exMetaSingle [[]]).length = numPieces exMetaSingle := by
  decide

/-- Helper: division and remainder of a sum, split at the first summand. -/
theorem add_div_mod_split (pl a c : Nat) (h : 0 < pl) :
    (a + c) / pl = a / pl + (a % pl + c) / pl ∧
    (a + c) % pl = (a % pl + c) % pl := by
  constructor
  · conv_lhs => rw [← Nat.div_add_mod a pl]
    rw [Nat.add_assoc, Nat.mul_add_div h]
  · conv_lhs => rw [← Nat.div_add_mod a pl]
    rw [Nat.add_assoc, Nat.mul_add_mod]

/-- Helper: `n / pl` full chunks plus one trailing partial chunk is the
ceiling `(n + pl - 1) / pl`. -/
theorem div_add_partial_eq_ceil (pl n : Nat) (h : 0 < pl) :
    n / pl + (if 0 < n % pl then 1 else 0) = (n + pl - 1) / pl := by
  have hqr := Nat.div_add_mod n pl
  have hrlt : n % pl < pl := Nat.mod_lt n h
  by_cases h0 : 0 < n % pl
  · rw [if_pos h0]
    have hn : n + pl - 1 = pl * (n / pl + 1) + (n % pl - 1) := by
      rw [Nat.mul_add, Nat.mul_one]
      omega
    have hlt : n % pl - 1 < pl := by omega
    rw [hn, Nat.mul_add_div h, Nat.div_eq_of_lt hlt]
  · rw [if_neg h0]
    have hn : n + pl - 1 = pl * (n / pl) + (pl - 1) := by omega
    have hlt : pl - 1 < pl := by omega
    rw [hn, Nat.mul_add_div h, Nat.div_eq_of_lt hlt]

/-- Helper for C1: the carry read loop produces exactly one hash-check entry
per full piece-length chunk of `buf ++ rest` and carries the remainder
forward. -/
theorem verifyChunksLoop_spec (hash : List Nat → List Nat) (pl : Nat)
    (pieces : List Nat) :
    ∀ (fuel : Nat) (buf : List Nat) (idx : Nat) (rest : List Nat),
      rest.length < fuel → buf.length < pl →
      (verifyChunksLoop hash pl pieces fuel buf idx rest).1.length
          = (buf.length + rest.length) / pl ∧
      (verifyChunksLoop hash pl pieces fuel buf idx rest).2.1.length
          = (buf.length + rest.length) % pl := by
  intro fuel
  induction fuel with
  | zero => intro buf idx rest hf hb; exact absurd hf (Nat.not_lt_zero _)
  | succ fuel ih =>
    intro buf idx rest hf hb
    simp only [verifyChunksLoop]
    by_cases hg : pl - buf.length ≤ rest.length ∧ 0 < pl - buf.length
    · rw [if_pos hg]
      obtain ⟨i1, i2⟩ := ih [] (idx + 20) (rest.drop (pl - buf.length))
        (by rw [List.length_drop]; omega) (by simp only [List.length_nil]; omega)
      have he : buf.length + rest.length
          = pl + (([] : List Nat).length + (rest.drop (pl - buf.length)).length) := by
        rw [List.length_drop, List.length_nil]
        omega
      constructor
      · rw [List.length_cons, i1, he, Nat.add_div_left _ (by omega)]
      · rw [i2, he, Nat.add_mod_left pl]
    · rw [if_neg hg]
      have hlt : buf.length + rest.length < pl := by omega
      constructor
      · rw [List.length_nil, Nat.div_eq_of_lt hlt]
      · rw [List.length_append, Nat.mod_eq_of_lt hlt]

/-- Helper for C1: across the whole file list, the number of entries is the
number of full piece-length chunks of the concatenated on-disk data, and the
carried remainder is its residue. -/
theorem verifyFiles_spec (hash : List Nat → List Nat) (pl : Nat)
    (pieces : List Nat) :
    ∀ (fls : List (List Nat)) (buf : List Nat) (idx : Nat), buf.length < pl →
      (verifyFiles hash pl pieces fls buf idx).1.length
          = (buf.length + (fls.map List.length).sum) / pl ∧
      (verifyFiles hash pl pieces fls buf idx).2.1.length
          = (buf.length + (fls.map List.length).sum) % pl := by
  intro fls
  induction fls with
  | nil =>
    intro buf idx hb
    constructor
    · simp [verifyFiles, Nat.div_eq_of_lt hb]
    · simp [verifyFiles, Nat.mod_eq_of_lt hb]
  | cons f fs ih =>
    intro buf idx hb
    have hpl : 0 < pl := by omega
    obtain ⟨c1, c2⟩ := verifyChunksLoop_spec hash pl pieces (f.length + 1) buf idx f
      (by omega) hb
    have hcl : (verifyChunksLoop hash pl pieces (f.length + 1) buf idx f).2.1.length < pl := by
      rw [c2]
      exact Nat.mod_lt _ hpl
    obtain ⟨j1, j2⟩ := ih (verifyChunksLoop hash pl pieces (f.length + 1) buf idx f).2.1
      (verifyChunksLoop hash pl pieces (f.length + 1) buf idx f).2.2 hcl
    constructor
    · simp only [verifyFiles, List.length_append, c1, j1, c2, List.map_cons,
        List.sum_cons]
      conv_rhs => rw [← Nat.add_assoc]
      exact ((add_div_mod_split pl (buf.length + f.length)
        ((fs.map List.length).sum) hpl).1).symm
    · simp only [verifyFiles, j2, c2, List.map_cons, List.sum_cons]
      conv_rhs => rw [← Nat.add_assoc]
      exact ((add_div_mod_split pl (buf.length + f.length)
        ((fs.map List.length).sum) hpl).2).symm

/-- Helper for C1: the trailing partial check adds one entry exactly when
carried bytes remain. -/
theorem verifyPartial_length (hash : List Nat → List Nat) (pieces : List Nat)
    (r : List Bool × List Nat × Nat) :
    (verifyPartial hash pieces r).length
      = r.1.length + (if 0 < r.2.1.length then 1 else 0) := by
  unfold verifyPartial
  by_cases hc : 0 < r.2.1.length
  · rw [if_pos hc, if_pos hc]
    simp
  · rw [if_neg hc, if_neg hc, Nat.add_zero]

/-- C1 (amended): in both layouts `Verify` returns one boolean per full
piece-length chunk OF THE DATA ACTUALLY ON DISK, plus one for a trailing
partial chunk — `⌈onDiskLength / PieceLength⌉` entries in total.  Byte
ranges past the end of the data produce no entries, so when files are
missing or short the list is SHORTER than the torrent's piece count (such
pieces are omitted, not reported `false`); moreover a short file shifts all
later data, and a non-EOF read error is `log.Fatal`. -/
theorem verify_length_onDisk (hash : List Nat → List Nat) (mi : MetaInfo)
    (files : List (List Nat)) (hpl : 0 < mi.Info.PieceLength) :
    (Verify hash mi files).length
      = (onDiskLength mi files + mi.Info.PieceLength - 1) / mi.Info.PieceLength := by
  unfold Verify onDiskLength
  by_cases hm : 0 < mi.Info.Files.length
  · rw [if_pos hm, if_pos hm, verifyPartial_length]
    obtain ⟨h1, h2⟩ := verifyFiles_spec hash mi.Info.PieceLength mi.Info.Pieces files [] 0
      (by simpa using hpl)
    rw [h1, h2]
    simp only [List.length_nil, Nat.zero_add]
    exact div_add_partial_eq_ceil mi.Info.PieceLength ((files.map List.length).sum) hpl
  · rw [if_neg hm, if_neg hm, verifyPartial_length]
    obtain ⟨h1, h2⟩ := verifyChunksLoop_spec hash mi.Info.PieceLength mi.Info.Pieces
      ((files.getD 0 []).length + 1) [] 0 (files.getD 0 []) (by omega)
      (by simpa using hpl)
    rw [h1, h2]
    simp only [List.length_nil, Nat.zero_add]
    exact div_add_partial_eq_ceil mi.Info.PieceLength (files.getD 0 []).length hpl

/-- C1, witness for `verify_length_onDisk`: the two-file layout with piece
length 4 and on-disk contents of 3 and 2 bytes yields `⌈5/4⌉ = 2` entries
(one full piece crossing the file boundary, one trailing partial piece). -/
theorem verify_length_onDisk_witness :
    0 < exMetaSmall.Info.PieceLength ∧
    (Verify exHash exMetaSmall [[1, 2, 3], [4, 5]]).length
      = (onDiskLength exMetaSmall [[1, 2, 3], [4, 5]] + exMetaSmall.Info.PieceLength - 1)
          / exMetaSmall.Info.PieceLength :=
  ⟨by decide, verify_length_onDisk exHash exMetaSmall [[1, 2, 3], [4, 5]] (by decide)⟩
